import Mathlib

/-!
Verification of the claude_monet_v2 client scene reconciler, binding-integrity
repair, AI action source, and reconnection policy, shallowly embedded from the
TypeScript/JavaScript source (the frontend `App.tsx` component and the
`ClaudeVisionService`).

Modelling conventions, used throughout:
* JavaScript objects become Lean structures; an optional field of the
  TypeScript interface becomes an `Option`, with `none` standing for an
  absent or `null` field (the code never distinguishes the two: both are
  falsy).
* JavaScript string truthiness is explicit: the empty string is falsy, so a
  test `if (x)` on a string field becomes a test that the `Option` is `some`
  of a non-empty string.
* `boundElements` is typed `any[] | null` and the code defensively checks
  `Array.isArray`, so its value domain is the four-way `BoundElems`
  inductive: absent, null, a non-array value, or an array of entries; an
  entry is either a non-object or an object with optional `id`/`type`
  string fields (`BEntry`).
* JavaScript numbers are modelled as `Int` (no claim computes with them).
-/

/-- Value of the `fontFamily` field, typed `string | number` in the source. -/
inductive StrOrNum
  | str (s : String)
  | num (n : Int)
deriving DecidableEq

/-- Value of the arrow `start`/`end` fields, typed `{ id: string }`. -/
structure EndBinding where
  id : String
deriving DecidableEq

/-- One entry of a `boundElements` array. The source treats an entry as valid
only if it is an object with truthy `id` and `type` properties, so the model
keeps the non-object case and optional fields explicit. -/
inductive BEntry
  | notObj
  | obj (id : Option String) (type : Option String)
deriving DecidableEq

/-- Value domain of the `boundElements` field (`any[] | null`, optional).
`notArray` stands for any truthy non-array value, which the source guards
against with `Array.isArray`. -/
inductive BoundElems
  | absent
  | nullV
  | notArray
  | arr (entries : List BEntry)
deriving DecidableEq

/-- Server element record, from the `ServerElement` interface of the frontend
(`src/start.sh` lines 264–297). Field defaults are construction conveniences
only (`none` = the field is absent). The TypeScript field `end` is a Lean
keyword and is written `«end»`. The `label` field carries only its `text`. -/
structure ServerElement where
  id : String
  type : String
  x : Int := 0
  y : Int := 0
  width : Option Int := none
  height : Option Int := none
  backgroundColor : Option String := none
  strokeColor : Option String := none
  strokeWidth : Option Int := none
  roughness : Option Int := none
  opacity : Option Int := none
  text : Option String := none
  fontSize : Option Int := none
  fontFamily : Option StrOrNum := none
  label : Option String := none
  createdAt : Option String := none
  updatedAt : Option String := none
  version : Option Int := none
  syncedAt : Option String := none
  source : Option String := none
  syncTimestamp : Option String := none
  boundElements : BoundElems := BoundElems.absent
  containerId : Option String := none
  locked : Option Bool := none
  start : Option EndBinding := none
  «end» : Option EndBinding := none
  strokeStyle : Option String := none
  endArrowhead : Option String := none
  startArrowhead : Option String := none
deriving DecidableEq

/-- An element as handed to the renderer: the `ServerElement` record minus
the six bookkeeping fields destructured away by `cleanElementForExcalidraw`
(`createdAt`, `updatedAt`, `version`, `syncedAt`, `source`, `syncTimestamp`).
This is the currency of the client scene in the model. -/
structure CleanElement where
  id : String
  type : String
  x : Int := 0
  y : Int := 0
  width : Option Int := none
  height : Option Int := none
  backgroundColor : Option String := none
  strokeColor : Option String := none
  strokeWidth : Option Int := none
  roughness : Option Int := none
  opacity : Option Int := none
  text : Option String := none
  fontSize : Option Int := none
  fontFamily : Option StrOrNum := none
  label : Option String := none
  boundElements : BoundElems := BoundElems.absent
  containerId : Option String := none
  locked : Option Bool := none
  start : Option EndBinding := none
  «end» : Option EndBinding := none
  strokeStyle : Option String := none
  endArrowhead : Option String := none
  startArrowhead : Option String := none
deriving DecidableEq

/-- Embeds `cleanElementForExcalidraw` (`src/start.sh` lines 323–336): rest
destructuring that drops `createdAt`, `updatedAt`, `version`, `syncedAt`,
`source`, `syncTimestamp` and keeps every other field verbatim. -/
def cleanElementForExcalidraw (element : ServerElement) : CleanElement :=
  { id := element.id
    type := element.type
    x := element.x
    y := element.y
    width := element.width
    height := element.height
    backgroundColor := element.backgroundColor
    strokeColor := element.strokeColor
    strokeWidth := element.strokeWidth
    roughness := element.roughness
    opacity := element.opacity
    text := element.text
    fontSize := element.fontSize
    fontFamily := element.fontFamily
    label := element.label
    boundElements := element.boundElements
    containerId := element.containerId
    locked := element.locked
    start := element.start
    «end» := element.«end»
    strokeStyle := element.strokeStyle
    endArrowhead := element.endArrowhead
    startArrowhead := element.startArrowhead }

/-- JavaScript truthiness of an optional string field: absent, `null` and the
empty string are falsy. -/
def truthyStr : Option String → Bool
  | none => false
  | some s => !(s == "")

/-- Embeds the filter predicate of `validateAndFixBindings` on one
`boundElements` entry (`src/start.sh` lines 351–364). The source's sequence of
early `return false` checks is the conjunction, in source order:
not an object → out; `!binding.id || !binding.type` → out; referenced element
absent from the map (membership in the candidate ids) → out; `binding.type`
not in `["text", "arrow"]` → out. -/
def keepBinding (elementIds : List String) (binding : BEntry) : Bool :=
  match binding with
  | BEntry.notObj => false
  | BEntry.obj bid btype =>
    truthyStr bid && truthyStr btype
      && elementIds.contains (bid.getD "")
      && ["text", "arrow"].contains (btype.getD "")

/-- Embeds the `boundElements` repair of `validateAndFixBindings`
(`src/start.sh` lines 347–375): a falsy value (absent/null) is untouched, a
truthy non-array is set to null, an array is filtered by `keepBinding` and
set to null when the filtered result is empty. -/
def fixBoundElements (elementIds : List String) : BoundElems → BoundElems
  | BoundElems.arr entries =>
    let filtered := entries.filter (keepBinding elementIds)
    if filtered.length == 0 then BoundElems.nullV else BoundElems.arr filtered
  | BoundElems.notArray => BoundElems.nullV
  | BoundElems.nullV => BoundElems.nullV
  | BoundElems.absent => BoundElems.absent

/-- Embeds the `containerId` repair of `validateAndFixBindings`
(`src/start.sh` lines 377–384): a falsy value (absent/null/empty string) is
untouched; a truthy one is kept when it is a key of the element map and set
to null otherwise. -/
def fixContainerId (elementIds : List String) (containerId : Option String) :
    Option String :=
  match containerId with
  | some cid =>
    if cid == "" then some cid
    else if elementIds.contains cid then some cid else none
  | none => none

/-- Embeds `validateAndFixBindings` (`src/start.sh` lines 339–388). The
source builds `elementMap = new Map(elements.map(el => [el.id, el]))` and the
repairs only ever test key membership, so the map is modelled by the list of
candidate ids. Each element is copied and its `boundElements` and
`containerId` repaired against that candidate set. -/
def validateAndFixBindings (elements : List CleanElement) : List CleanElement :=
  let elementIds := elements.map (fun el => el.id)
  elements.map (fun element =>
    { element with
        boundElements := fixBoundElements elementIds element.boundElements
        containerId := fixContainerId elementIds element.containerId })

/-- Entries observable in a `boundElements` value: the entries of an array,
nothing otherwise. -/
def entriesOf : BoundElems → List BEntry
  | BoundElems.arr entries => entries
  | _ => []

/-- Change-capture mode passed to `excalidrawAPI.updateScene`; the source uses
`CaptureUpdateAction.NEVER` for server-applied updates and
`CaptureUpdateAction.IMMEDIATELY` for locally initiated ones. -/
inductive Capture
  | never
  | immediately
deriving DecidableEq

/-- One `updateScene` call on the scene elements: the new element list and
the change-capture mode it is applied with. -/
structure SceneUpdate where
  elements : List CleanElement
  capture : Capture
deriving DecidableEq

/-- Truthiness of the arrow endpoint bindings checked by the
`element_created` / `elements_batch_created` handlers
(`(el as any).start || (el as any).end`): the fields hold objects, so the
test is presence. -/
def hasEndpointBindings (el : CleanElement) : Bool :=
  el.start.isSome || el.«end».isSome

/-- Embeds the `element_created` branch of `handleWebSocketMessage`
(`src/start.sh` lines 668–703). `convList` stands for the external library
function `convertToExcalidrawElements(·, { regenerateIds: false })`, which is
opaque to this development: the branch either converts the whole
current-scene-plus-new-element list together (when the new element carries
`start`/`end` bindings) or converts the new element alone and appends it. -/
def applyElementCreated (convList : List CleanElement → List CleanElement)
    (currentElements : List CleanElement) (cleanedNewElement : CleanElement) :
    List CleanElement :=
  if hasEndpointBindings cleanedNewElement then
    convList (currentElements ++ [cleanedNewElement])
  else
    currentElements ++ convList [cleanedNewElement]

/-- Embeds the `elements_batch_created` branch of `handleWebSocketMessage`
(`src/start.sh` lines 737–774): when some element of the batch carries
`start`/`end` bindings the whole current-scene-plus-batch list is converted
together, otherwise the batch is converted alone and appended. -/
def applyBatchCreated (convList : List CleanElement → List CleanElement)
    (currentElements : List CleanElement)
    (cleanedBatchElements : List CleanElement) : List CleanElement :=
  if cleanedBatchElements.any hasEndpointBindings then
    convList (currentElements ++ cleanedBatchElements)
  else
    currentElements ++ convList cleanedBatchElements

/-- Core of the `element_updated` branch of `handleWebSocketMessage`
(`src/start.sh` lines 705–723): every scene element whose id equals the
event element's id is replaced by the converted updated element, every other
element is kept. -/
def applyElementUpdated (convertedUpdatedElement : CleanElement)
    (eventId : String) (currentElements : List CleanElement) :
    List CleanElement :=
  currentElements.map (fun el =>
    if el.id == eventId then convertedUpdatedElement else el)

/-- The `element_updated` branch in full: the event element is cleaned, then
converted through the (opaque, deterministic) library converter — the source
takes index `[0]` of the one-element conversion, modelled by `headD` with the
cleaned element as the (per the library contract, unreachable) default — and
substituted into the scene by id. -/
def applyElementUpdatedEvent (convList : List CleanElement → List CleanElement)
    (el : ServerElement) (currentElements : List CleanElement) :
    List CleanElement :=
  let cleaned := cleanElementForExcalidraw el
  applyElementUpdated ((convList [cleaned]).headD cleaned) el.id currentElements

/-- Embeds the `element_deleted` branch of `handleWebSocketMessage`
(`src/start.sh` lines 725–735): `currentElements.filter(el => el.id !==
data.elementId)`. -/
def applyElementDeleted (elementId : String)
    (currentElements : List CleanElement) : List CleanElement :=
  currentElements.filter (fun el => el.id != elementId)

/-- Incoming WebSocket envelope (`WebSocketMessage`, `src/start.sh` lines
299–309), restricted to the fields the scene-update dispatch reads.
`mermaidDiagram` carries the raw Mermaid text of a `mermaid_convert`
request. -/
structure WsMessage where
  type : String
  element : Option ServerElement := none
  elements : Option (List ServerElement) := none
  elementId : Option String := none
  mermaidDiagram : Option String := none

/-- Embeds the scene-element updates performed by `handleWebSocketMessage`
(`src/start.sh` lines 638–1011): for a message, the `updateScene` elements
call the handler issues, if any, with its change-capture mode. `convList`
models the external `convertToExcalidrawElements(·, { regenerateIds: false })`
and `mermaidConv` the external Mermaid-to-Excalidraw conversion (`none` = the
conversion reported an error). Branches that do not update the scene
elements (`elements_synced`, `sync_status`, `export_image_request`,
`set_viewport`, unknown types) yield `none`; JavaScript truthiness guards
(`data.elements && data.elements.length > 0`, `data.element`,
`data.elementId`) are kept. -/
def handleWebSocketMessage (convList : List CleanElement → List CleanElement)
    (mermaidConv : String → Option (List CleanElement))
    (currentElements : List CleanElement) (data : WsMessage) :
    Option SceneUpdate :=
  if data.type == "initial_elements" then
    match data.elements with
    | some els =>
      if els.length > 0 then
        some { elements :=
                convList (validateAndFixBindings
                  (els.map cleanElementForExcalidraw))
               capture := Capture.never }
      else none
    | none => none
  else if data.type == "element_created" then
    match data.element with
    | some el =>
      some { elements :=
              applyElementCreated convList currentElements
                (cleanElementForExcalidraw el)
             capture := Capture.never }
    | none => none
  else if data.type == "element_updated" then
    match data.element with
    | some el =>
      some { elements := applyElementUpdatedEvent convList el currentElements
             capture := Capture.never }
    | none => none
  else if data.type == "element_deleted" then
    match data.elementId with
    | some eid =>
      if eid == "" then none
      else
        some { elements := applyElementDeleted eid currentElements
               capture := Capture.never }
    | none => none
  else if data.type == "elements_batch_created" then
    match data.elements with
    | some els =>
      some { elements :=
              applyBatchCreated convList currentElements
                (els.map cleanElementForExcalidraw)
             capture := Capture.never }
    | none => none
  else if data.type == "elements_synced" then none
  else if data.type == "sync_status" then none
  else if data.type == "canvas_cleared" then
    some { elements := [], capture := Capture.never }
  else if data.type == "export_image_request" then none
  else if data.type == "set_viewport" then none
  else if data.type == "mermaid_convert" then
    match data.mermaidDiagram with
    | some diagram =>
      match mermaidConv diagram with
      | some els =>
        if els.length > 0 then
          some { elements := convList els, capture := Capture.immediately }
        else none
      | none => none
    | none => none
  else none

/-- The six server store-change event types of the broadcast protocol. -/
def storeChangeMessageTypes : List String :=
  ["initial_elements", "element_created", "element_updated",
   "element_deleted", "elements_batch_created", "canvas_cleared"]

/-- An HTTP request issued by the client, reduced to method and path (the
snapshot fetch carries neither query parameters nor a body). -/
structure HttpRequest where
  method : String
  path : String
deriving DecidableEq

/-- The request issued by `loadExistingElements` (`src/start.sh` lines
576–591): a parameterless `fetch("/api/elements")`, i.e. a GET of the full
current element list. The definition takes no input at all: the request
carries no last-seen cursor or replay point. -/
def loadExistingElementsRequest : HttpRequest :=
  { method := "GET", path := "/api/elements" }

/-- An action the WebSocket lifecycle handlers schedule via `setTimeout`. -/
inductive ScheduledAction
  | reconnect (delayMs : Nat)
  | fetchElements (request : HttpRequest) (delayMs : Nat)
deriving DecidableEq

/-- Embeds the `onclose` handler of `connectWebSocket` (`src/start.sh` lines
623–630): when the close code is not 1000 it schedules exactly one
`connectWebSocket` retry after 3000 ms, otherwise nothing. -/
def onCloseScheduled (code : Nat) : List ScheduledAction :=
  if code != 1000 then [ScheduledAction.reconnect 3000] else []

/-- Embeds the `onopen` handler of `connectWebSocket` (`src/start.sh` lines
606–612): when the Excalidraw API is mounted it schedules
`loadExistingElements` — the full-snapshot GET — after 100 ms. (When the API
is not yet mounted, the mount effect at lines 565–574 performs the same
`loadExistingElements` call instead.) -/
def onOpenScheduled (apiAvailable : Bool) : List ScheduledAction :=
  if apiAvailable then
    [ScheduledAction.fetchElements loadExistingElementsRequest 100]
  else []

/-- JSON value, the codomain of the external `JSON.parse` builtin. Numbers
are modelled as `Int` (no claim computes with them). -/
inductive JValue
  | null
  | bool (b : Bool)
  | num (n : Int)
  | str (s : String)
  | arr (elements : List JValue)
  | obj (fields : List (String × JValue))

/-- Property access `v[key]` on a parsed JSON value: the first binding of the
key on an object, nothing on any other value. -/
def jGet : JValue → String → Option JValue
  | JValue.obj fields, key => (fields.find? (fun kv => kv.1 == key)).map (fun kv => kv.2)
  | _, _ => none

/-- The `Array.isArray` test on an optionally-present JSON value. -/
def isArrayJ : Option JValue → Bool
  | some (JValue.arr _) => true
  | _ => false

/-- Whitespace class used for the regex `\s` and for `String.trim`; modelled
by `Char.isWhitespace` (space, tab, CR, LF — the JavaScript class also
admits rarer Unicode spaces, which no claim exercises). -/
def wsChar (c : Char) : Bool := c.isWhitespace

/-- Index of the first occurrence of `pat` as a contiguous sublist, scanning
left to right. -/
def findSubIdx (pat : List Char) : List Char → Option Nat
  | [] => if pat.isEmpty then some 0 else none
  | c :: cs =>
    if pat.isPrefixOf (c :: cs) then some 0
    else (findSubIdx pat cs).map (fun k => k + 1)

/-- Index of the first occurrence of character `c` (JavaScript `indexOf`). -/
def firstIdxOf (c : Char) : List Char → Option Nat
  | [] => none
  | d :: ds => if d == c then some 0 else (firstIdxOf c ds).map (fun k => k + 1)

/-- Index of the last occurrence of character `c` (JavaScript `lastIndexOf`). -/
def lastIdxOf (c : Char) (cs : List Char) : Option Nat :=
  (firstIdxOf c cs.reverse).map (fun k => cs.length - 1 - k)

/-- JavaScript `String.prototype.trim` over the character list. -/
def trimList (cs : List Char) : List Char :=
  ((cs.dropWhile wsChar).reverse.dropWhile wsChar).reverse

/-- The three-backtick fence delimiter of `extractJSON`. -/
def fenceDelim : List Char := "\x60\x60\x60".data

/-- The opening brace character, written by code point to keep it out of
string-interpolation syntax. -/
def openBrace : Char := Char.ofNat 123

/-- The closing brace character. -/
def closeBrace : Char := Char.ofNat 125

/-- Fallback of `extractJSON` when the fence regex does not produce a truthy
capture (`src/start.sh` lines 142–145): slice from the first opening brace
through the last closing brace when both exist, else the trimmed input.
JavaScript `slice(start, end + 1)` yields the empty string when the last
closing brace precedes the first opening brace, as does the `take` here. -/
def braceOrTrim (cs : List Char) : List Char :=
  match firstIdxOf openBrace cs, lastIdxOf closeBrace cs with
  | some s, some e => (cs.drop s).take (e + 1 - s)
  | _, _ => trimList cs

/-- Embeds `extractJSON` (`src/start.sh` lines 139–146) over the character
list. The regex match against three-backtick fences with an optional `json`
language tag and a lazy capture is modelled positionally: the capture is the
text between the first fence pair, minus a leading `json` tag and leading
whitespace. A falsy (empty) capture falls through to the brace slice, as
`if (fenceMatch?.[1])` does. -/
def extractJSONList (cs : List Char) : List Char :=
  match findSubIdx fenceDelim cs with
  | some i =>
    let afterOpen := (cs.drop (i + 3))
    match findSubIdx fenceDelim afterOpen with
    | some j =>
      let inner := afterOpen.take j
      let afterLang := if ("json".data).isPrefixOf inner then inner.drop 4 else inner
      let capture := afterLang.dropWhile wsChar
      if capture.isEmpty then braceOrTrim cs else trimList capture
    | none => braceOrTrim cs
  | none => braceOrTrim cs

/-- Embeds `extractJSON` at the `String` level. -/
def extractJSON (raw : String) : String :=
  String.mk (extractJSONList raw.data)

/-- One block of the AI response's `content` array; only the `type` tag and
the `text` payload are read by `generateActions`. -/
structure ContentBlock where
  type : String
  text : String

/-- The distinct error exits of `generateActions`. A parsed value on which
the `actions` property access itself faults (`null` and other non-objects)
also surfaces as `missingActionsArray`: either way the call rejects. -/
inductive GenerateActionsError
  | unexpectedResponseType
  | invalidJSON
  | missingActionsArray
deriving DecidableEq

/-- Embeds the response handling of `ClaudeVisionService.generateActions`
(`src/start.sh` lines 157–194), from the API response on. `parse` stands for
the external `JSON.parse` builtin (`none` = it threw). The source reads
`response.content[0]`, rejects a missing or non-text block, parses the
extracted JSON, rejects a parse failure, rejects a parsed value whose
`actions` property is not an array, and otherwise returns the parsed value
unchanged. -/
def generateActions (parse : String → Option JValue)
    (content : List ContentBlock) : Except GenerateActionsError JValue :=
  match content.head? with
  | none => Except.error GenerateActionsError.unexpectedResponseType
  | some c =>
    if c.type != "text" then Except.error GenerateActionsError.unexpectedResponseType
    else
      match parse (extractJSON c.text) with
      | none => Except.error GenerateActionsError.invalidJSON
      | some parsed =>
        if isArrayJ (jGet parsed "actions") then Except.ok parsed
        else Except.error GenerateActionsError.missingActionsArray

/-- Claim C6: for every server element record, `cleanElementForExcalidraw`
removes exactly the six bookkeeping fields `createdAt`, `updatedAt`,
`version`, `syncedAt`, `source` and `syncTimestamp`, and leaves every other
field — in particular the externally assigned `id` — unchanged. The first
conjunct checks each of the 23 retained fields verbatim; the second shows
the output is independent of the six removed fields (the codomain
`CleanElement` does not carry them at all). -/
theorem cleanElement_strips_exactly_bookkeeping (e : ServerElement) :
    ((cleanElementForExcalidraw e).id = e.id
      ∧ (cleanElementForExcalidraw e).type = e.type
      ∧ (cleanElementForExcalidraw e).x = e.x
      ∧ (cleanElementForExcalidraw e).y = e.y
      ∧ (cleanElementForExcalidraw e).width = e.width
      ∧ (cleanElementForExcalidraw e).height = e.height
      ∧ (cleanElementForExcalidraw e).backgroundColor = e.backgroundColor
      ∧ (cleanElementForExcalidraw e).strokeColor = e.strokeColor
      ∧ (cleanElementForExcalidraw e).strokeWidth = e.strokeWidth
      ∧ (cleanElementForExcalidraw e).roughness = e.roughness
      ∧ (cleanElementForExcalidraw e).opacity = e.opacity
      ∧ (cleanElementForExcalidraw e).text = e.text
      ∧ (cleanElementForExcalidraw e).fontSize = e.fontSize
      ∧ (cleanElementForExcalidraw e).fontFamily = e.fontFamily
      ∧ (cleanElementForExcalidraw e).label = e.label
      ∧ (cleanElementForExcalidraw e).boundElements = e.boundElements
      ∧ (cleanElementForExcalidraw e).containerId = e.containerId
      ∧ (cleanElementForExcalidraw e).locked = e.locked
      ∧ (cleanElementForExcalidraw e).start = e.start
      ∧ (cleanElementForExcalidraw e).«end» = e.«end»
      ∧ (cleanElementForExcalidraw e).strokeStyle = e.strokeStyle
      ∧ (cleanElementForExcalidraw e).endArrowhead = e.endArrowhead
      ∧ (cleanElementForExcalidraw e).startArrowhead = e.startArrowhead)
    ∧ (∀ c u v sy so st,
        cleanElementForExcalidraw
          { e with createdAt := c, updatedAt := u, version := v,
                   syncedAt := sy, source := so, syncTimestamp := st } =
        cleanElementForExcalidraw e) :=
  ⟨⟨rfl, rfl, rfl, rfl, rfl, rfl, rfl, rfl, rfl, rfl, rfl, rfl, rfl, rfl,
    rfl, rfl, rfl, rfl, rfl, rfl, rfl, rfl, rfl⟩,
   fun _ _ _ _ _ _ => rfl⟩

/-- Claim C4: applying the `element_updated` handler for one event twice in
succession yields the same scene as applying it once — last-write-wins per
element id, whatever the (opaque, deterministic) library converter returns
for the event element. -/
theorem elementUpdated_idempotent
    (convList : List CleanElement → List CleanElement) (el : ServerElement)
    (currentElements : List CleanElement) :
    applyElementUpdatedEvent convList el
      (applyElementUpdatedEvent convList el currentElements) =
    applyElementUpdatedEvent convList el currentElements := by
  unfold applyElementUpdatedEvent applyElementUpdated
  simp only [List.map_map]
  apply List.map_congr_left
  intro a _
  by_cases h : (a.id == el.id) = true
  · simp only [Function.comp_apply, if_pos h, ite_self]
  · simp only [Function.comp_apply, if_neg h]

/-- Claim C10: the `element_deleted` handler removes exactly the scene
elements whose id equals the event's `elementId` — the result is a sublist
of the scene (every other element unchanged, order kept), membership is
exactly "was present with a different id", and when no element carries that
id the scene is returned unchanged (deletion of an unknown id is a no-op,
not an error). -/
theorem elementDeleted_removes_exactly_id (elementId : String)
    (currentElements : List CleanElement) :
    (applyElementDeleted elementId currentElements).Sublist currentElements
    ∧ (∀ e, e ∈ applyElementDeleted elementId currentElements ↔
        e ∈ currentElements ∧ e.id ≠ elementId)
    ∧ ((∀ e ∈ currentElements, e.id ≠ elementId) →
        applyElementDeleted elementId currentElements = currentElements) := by
  unfold applyElementDeleted
  refine ⟨List.filter_sublist _, ?_, ?_⟩
  · intro e
    rw [List.mem_filter]
    simp only [bne_iff_ne]
  · intro h
    apply List.filter_eq_self.mpr
    intro a ha
    exact bne_iff_ne.mpr (h a ha)

/-- Claim C3, amended: when a created element (or some element of a created
batch) carries arrow endpoint bindings (`start`/`end`), the handler hands the
union of the current local scene and the new element(s) to the converter in
one call, so those bindings are resolved against the full local scene, not
against the new element(s) alone. The source's guard checks only the arrow
endpoints, so this does not extend to text-container links: see the
counterexample below for an element carrying only a `containerId`. -/
theorem created_converts_against_union
    (convList : List CleanElement → List CleanElement)
    (currentElements : List CleanElement) (newEl : CleanElement)
    (batch : List CleanElement)
    (h1 : hasEndpointBindings newEl = true)
    (h2 : batch.any hasEndpointBindings = true) :
    applyElementCreated convList currentElements newEl =
      convList (currentElements ++ [newEl])
    ∧ applyBatchCreated convList currentElements batch =
      convList (currentElements ++ batch) := by
  constructor
  · unfold applyElementCreated
    rw [if_pos h1]
  · unfold applyBatchCreated
    rw [if_pos h2]

/-- Concrete element used by several witnesses: a plain rectangle. -/
def rectW : CleanElement := { id := "rect1", type := "rectangle" }

/-- Concrete element used by witnesses: an arrow whose `start` binds to
`rect1`. -/
def arrowW : CleanElement :=
  { id := "arw1", type := "arrow", start := some { id := "rect1" } }

/-- Witness for claim C3 at a concrete input: a bound arrow arriving both as
a single create and as a one-element batch is converted together with the
current scene. -/
theorem created_converts_against_union_witness :
    applyElementCreated (fun l => l) [rectW] arrowW = [rectW, arrowW]
    ∧ applyBatchCreated (fun l => l) [rectW] [arrowW] = [rectW, arrowW] :=
  created_converts_against_union (fun l => l) [rectW] arrowW [arrowW]
    (by decide) (by decide)

/-- Concrete element of the C3 counterexample: a text element whose only
binding is a text-container link (`containerId` referring to `rect1`), with
no arrow endpoints. -/
def txtLinkW : CleanElement :=
  { id := "txt2", type := "text", containerId := some "rect1" }

/-- A converter that distinguishes which list it is handed: it drops its
input, so any element of its argument is absent from the result. -/
def dropAllConv : List CleanElement → List CleanElement := fun _ => []

/-- Counterexample to claim C3 as frozen: the claim covers elements carrying
"arrow endpoints or text-container links", but the source's guards
(`cleanedNewElement.start || cleanedNewElement.end` for a create, `el.start
|| el.end` for a batch) ignore `containerId`. The element `txtLinkW` carries
a text-container link and no endpoints, yet both handlers take the else
branch: the converter receives only the new element — here a converter that
drops its whole input leaves the current scene untouched — instead of the
union of the scene and the new element, so the result differs from
converting them all together. -/
theorem created_containerLink_converted_alone :
    txtLinkW.containerId = some "rect1"
    ∧ hasEndpointBindings txtLinkW = false
    ∧ applyElementCreated dropAllConv [rectW] txtLinkW ≠
        dropAllConv ([rectW] ++ [txtLinkW])
    ∧ applyBatchCreated dropAllConv [rectW] [txtLinkW] ≠
        dropAllConv ([rectW] ++ [txtLinkW]) := by
  decide

/-- Claim C8: on a WebSocket close whose code is not 1000 the client
schedules exactly one reconnection attempt after a fixed 3000 ms delay; on a
clean close (code 1000) it schedules none; and on (re)open with the renderer
mounted it schedules the full-snapshot fetch, a parameterless
`GET /api/elements` (no last-seen cursor to resume from). -/
theorem websocket_reconnect_policy (code : Nat) :
    (code ≠ 1000 → onCloseScheduled code = [ScheduledAction.reconnect 3000])
    ∧ (code = 1000 → onCloseScheduled code = [])
    ∧ onOpenScheduled true =
        [ScheduledAction.fetchElements loadExistingElementsRequest 100]
    ∧ loadExistingElementsRequest = { method := "GET", path := "/api/elements" } := by
  refine ⟨?_, ?_, rfl, rfl⟩
  · intro h
    unfold onCloseScheduled
    rw [if_pos (bne_iff_ne.mpr h)]
  · intro h
    subst h
    rfl

/-- Unfolding of `validateAndFixBindings`: the transform is the per-element
repair mapped over the list, against the candidate ids. -/
lemma validateAndFixBindings_eq (es : List CleanElement) :
    validateAndFixBindings es = es.map (fun element =>
      { element with
          boundElements :=
            fixBoundElements (es.map (fun el => el.id)) element.boundElements
          containerId :=
            fixContainerId (es.map (fun el => el.id)) element.containerId }) := rfl

/-- Characterization of the source's entry filter: an entry passes exactly
when it is an object carrying a (truthy, i.e. non-empty) `id` and `type`,
the `id` resolves in the candidate set, and the `type` is `text` or `arrow`
(which makes the `type`'s truthiness automatic). -/
lemma keepBinding_eq_true (elementIds : List String) (b : BEntry) :
    keepBinding elementIds b = true ↔
      ∃ i ty, b = BEntry.obj (some i) (some ty) ∧ i ≠ "" ∧ i ∈ elementIds
        ∧ (ty = "text" ∨ ty = "arrow") := by
  cases b with
  | notObj => simp [keepBinding]
  | obj bid btype =>
    cases bid with
    | none => simp [keepBinding, truthyStr]
    | some i =>
      cases btype with
      | none => simp [keepBinding, truthyStr]
      | some ty =>
        simp [keepBinding, truthyStr]
        constructor
        · rintro ⟨⟨⟨hni, hnty⟩, hmem⟩, hty⟩
          exact ⟨i, ty, ⟨rfl, rfl⟩, hni, hmem, hty⟩
        · rintro ⟨i2, ty2, ⟨rfl, rfl⟩, hni, hmem, hty⟩
          refine ⟨⟨⟨hni, ?_⟩, hmem⟩, hty⟩
          rcases hty with h | h <;> (rw [h]; simp)

/-- The entries surviving in a repaired `boundElements` array are exactly the
filtered ones (an emptied array shows no entries, being nulled). -/
lemma entriesOf_fixBoundElements_arr (elementIds : List String)
    (l : List BEntry) :
    entriesOf (fixBoundElements elementIds (BoundElems.arr l)) =
      l.filter (keepBinding elementIds) := by
  simp only [fixBoundElements]
  split
  · next h =>
    rw [show l.filter (keepBinding elementIds) = [] from
      List.length_eq_zero.mp (by simpa using h)]
    rfl
  · rfl

/-- Claim C1: in the output of `validateAndFixBindings` every surviving weak
reference resolves within the candidate list — the output carries the same
ids as the input, every retained `boundElements` entry's id is the id of an
input element, and every retained (truthy, per the source's `if
(fixedElement.containerId)` test an empty string is no reference)
`containerId` is the id of an input element; a non-resolving one was cleared
to null, never left dangling. -/
theorem bindings_resolve_in_candidate_set (es : List CleanElement)
    (out : CleanElement) (hmem : out ∈ validateAndFixBindings es) :
    ((validateAndFixBindings es).map (fun el => el.id) = es.map (fun el => el.id))
    ∧ (∀ b ∈ entriesOf out.boundElements,
        ∃ i ty, b = BEntry.obj (some i) ty ∧ i ∈ es.map (fun el => el.id))
    ∧ (∀ s, out.containerId = some s → s ≠ "" → s ∈ es.map (fun el => el.id)) := by
  have hids : (validateAndFixBindings es).map (fun el => el.id) =
      es.map (fun el => el.id) := by
    rw [validateAndFixBindings_eq, List.map_map]
    exact List.map_congr_left fun _ _ => rfl
  refine ⟨hids, ?_, ?_⟩
  all_goals
    rw [validateAndFixBindings_eq] at hmem
    obtain ⟨e, he, rfl⟩ := List.mem_map.mp hmem
  · intro b hb
    replace hb : b ∈ entriesOf
        (fixBoundElements (es.map (fun el => el.id)) e.boundElements) := hb
    cases hbe : e.boundElements with
    | arr l =>
      rw [hbe, entriesOf_fixBoundElements_arr] at hb
      obtain ⟨i, ty, rfl, _, hmi, _⟩ :=
        (keepBinding_eq_true _ _).mp (List.mem_filter.mp hb).2
      exact ⟨i, some ty, rfl, hmi⟩
    | absent => rw [hbe] at hb; cases hb
    | nullV => rw [hbe] at hb; cases hb
    | notArray => rw [hbe] at hb; cases hb
  · intro s hs hne
    replace hs : fixContainerId (es.map (fun el => el.id)) e.containerId =
        some s := hs
    cases hc : e.containerId with
    | none => rw [hc] at hs; cases hs
    | some cid =>
      rw [hc] at hs
      simp only [fixContainerId] at hs
      by_cases hcid : (cid == "") = true
      · rw [if_pos hcid] at hs
        injection hs with h
        subst h
        exact absurd (beq_iff_eq.mp hcid) hne
      · rw [if_neg hcid] at hs
        by_cases hin : ((es.map (fun el => el.id)).contains cid) = true
        · rw [if_pos hin] at hs
          injection hs with h
          subst h
          exact List.elem_iff.mp hin
        · rw [if_neg hin] at hs
          cases hs

/-- Concrete text element used by the C1 witness: its `containerId` resolves
to `rect1` and its one `boundElements` entry dangles. -/
def txtW : CleanElement :=
  { id := "txt1", type := "text", containerId := some "rect1",
    boundElements := BoundElems.arr [BEntry.obj (some "ghost") (some "text")] }

/-- The repaired form of `txtW` in the candidate set `[rectW, txtW]`: the
dangling entry was dropped, which emptied and nulled `boundElements`, while
the resolving `containerId` survived. -/
def txtWOut : CleanElement :=
  { id := "txt1", type := "text", containerId := some "rect1",
    boundElements := BoundElems.nullV }

/-- Witness for claim C1 at a concrete input: the surviving `containerId` of
the repaired text element resolves to an id of the committed list. -/
theorem bindings_resolve_in_candidate_set_witness :
    "rect1" ∈ ([rectW, txtW].map (fun el => el.id)) :=
  (bindings_resolve_in_candidate_set [rectW, txtW] txtWOut (by decide)).2.2
    "rect1" (by decide) (by decide)

/-- Claim C2: pairing each input element with its output, a `boundElements`
that is present but not an array (a truthy non-array, or `null`) ends up
null; and for an array, an entry survives exactly when it is an object
carrying an id and a type, the type is `text` or `arrow`, and the id
resolves in the candidate set — entries are dropped individually, the valid
ones survive whatever happens to their neighbours. -/
theorem boundElements_partial_repair (es : List CleanElement) :
    List.Forall₂ (fun e out =>
      (e.boundElements = BoundElems.notArray →
        out.boundElements = BoundElems.nullV)
      ∧ (e.boundElements = BoundElems.nullV →
        out.boundElements = BoundElems.nullV)
      ∧ (∀ l, e.boundElements = BoundElems.arr l →
          ∀ b, b ∈ entriesOf out.boundElements ↔
            (b ∈ l ∧ ∃ i ty, b = BEntry.obj (some i) (some ty) ∧ i ≠ ""
              ∧ i ∈ es.map (fun el => el.id)
              ∧ (ty = "text" ∨ ty = "arrow"))))
      es (validateAndFixBindings es) := by
  rw [validateAndFixBindings_eq, List.forall₂_map_right_iff, List.forall₂_same]
  intro e he
  refine ⟨?_, ?_, ?_⟩
  · intro h
    show fixBoundElements (es.map (fun el => el.id)) e.boundElements =
      BoundElems.nullV
    rw [h]
    rfl
  · intro h
    show fixBoundElements (es.map (fun el => el.id)) e.boundElements =
      BoundElems.nullV
    rw [h]
    rfl
  · intro l hl b
    have hent : entriesOf (fixBoundElements (es.map (fun el => el.id))
        e.boundElements) = l.filter (keepBinding (es.map (fun el => el.id))) := by
      rw [hl, entriesOf_fixBoundElements_arr]
    show b ∈ entriesOf (fixBoundElements (es.map (fun el => el.id))
        e.boundElements) ↔ _
    rw [hent, List.mem_filter, keepBinding_eq_true]

/-- Claim C9: pairing each input element with its output, a non-empty
`boundElements` array all of whose entries are dropped by the repair comes
out as null, not as an empty array; and no output element ever carries an
empty `boundElements` array. -/
theorem emptied_boundElements_become_null (es : List CleanElement) :
    (List.Forall₂ (fun e out => ∀ l, e.boundElements = BoundElems.arr l →
        l ≠ [] →
        l.filter (keepBinding (es.map (fun el => el.id))) = [] →
        out.boundElements = BoundElems.nullV) es (validateAndFixBindings es))
    ∧ ∀ out ∈ validateAndFixBindings es,
        out.boundElements ≠ BoundElems.arr [] := by
  constructor
  · rw [validateAndFixBindings_eq, List.forall₂_map_right_iff, List.forall₂_same]
    intro e he l hl hnil hfil
    show fixBoundElements (es.map (fun el => el.id)) e.boundElements =
      BoundElems.nullV
    rw [hl]
    simp [fixBoundElements, hfil]
  · intro out hmem
    rw [validateAndFixBindings_eq] at hmem
    obtain ⟨e, he, rfl⟩ := List.mem_map.mp hmem
    show fixBoundElements (es.map (fun el => el.id)) e.boundElements ≠
      BoundElems.arr []
    cases e.boundElements with
    | absent => simp [fixBoundElements]
    | nullV => simp [fixBoundElements]
    | notArray => simp [fixBoundElements]
    | arr l =>
      simp only [fixBoundElements]
      split
      · simp
      · next h =>
        simp only [ne_eq, BoundElems.arr.injEq]
        intro habs
        exact h (by rw [habs]; rfl)

/-- Claim C5: every scene-elements update the reconciler applies in response
to one of the six server store-change events (`initial_elements`,
`element_created`, `element_updated`, `element_deleted`,
`elements_batch_created`, `canvas_cleared`) is applied with the local-edit
change-capture suppressed (`CaptureUpdateAction.NEVER`), so no
server-originated change re-enters the client's own local-edit
change-detection path. (The locally initiated `mermaid_convert` path is the
one that captures immediately, and it is outside this event set.) -/
theorem serverApplied_updates_suppress_capture
    (convList : List CleanElement → List CleanElement)
    (mermaidConv : String → Option (List CleanElement))
    (currentElements : List CleanElement) (data : WsMessage) (u : SceneUpdate)
    (htype : data.type ∈ storeChangeMessageTypes)
    (h : handleWebSocketMessage convList mermaidConv currentElements data =
      some u) :
    u.capture = Capture.never := by
  unfold handleWebSocketMessage at h
  simp only [storeChangeMessageTypes, List.mem_cons, List.not_mem_nil,
    or_false] at htype
  rcases htype with hty | hty | hty | hty | hty | hty <;>
      rw [hty] at h <;> simp at h <;> (repeat' split at h) <;>
    first
      | exact Option.noConfusion h
      | (injection h with h2; rw [← h2])
      | rw [← h]

/-- Witness for claim C5 at a concrete input: a `canvas_cleared` event
produces the empty-scene update with capture `never`. -/
theorem serverApplied_updates_suppress_capture_witness :
    (SceneUpdate.mk [] Capture.never).capture = Capture.never :=
  serverApplied_updates_suppress_capture (fun l => l) (fun _ => none) []
    { type := "canvas_cleared" } (SceneUpdate.mk [] Capture.never)
    (by decide) rfl

/-- Claim C7, amended: `generateActions` rejects (raises) exactly when the AI
response's first content block is missing or not a text block, or the
extracted content fails to parse as JSON, or the parsed value's `actions`
property is not an array; otherwise it returns the parsed value, which is
guaranteed to contain an `actions` array. (The source performs no check on
`explanation`: see the counterexample for the unamended claim.) -/
theorem generateActions_rejects_iff (parse : String → Option JValue)
    (content : List ContentBlock) :
    ((∃ err, generateActions parse content = Except.error err) ↔
      ((¬ ∃ c, content.head? = some c ∧ c.type = "text")
        ∨ (∃ c, content.head? = some c ∧ c.type = "text"
            ∧ parse (extractJSON c.text) = none)
        ∨ (∃ c parsed, content.head? = some c ∧ c.type = "text"
            ∧ parse (extractJSON c.text) = some parsed
            ∧ isArrayJ (jGet parsed "actions") = false)))
    ∧ (∀ v, generateActions parse content = Except.ok v →
        isArrayJ (jGet v "actions") = true) := by
  cases hc : content.head? with
  | none =>
    have hg : generateActions parse content =
        Except.error GenerateActionsError.unexpectedResponseType := by
      unfold generateActions
      rw [hc]
    refine ⟨⟨fun _ => Or.inl ?_, fun _ => ⟨_, hg⟩⟩, fun v hv => ?_⟩
    · rintro ⟨c, hcc, -⟩
      exact Option.noConfusion hcc
    · rw [hg] at hv
      cases hv
  | some c =>
    by_cases ht : c.type = "text"
    · have ht' : (c.type != "text") = false := by
        rw [ht]
        rfl
      cases hp : parse (extractJSON c.text) with
      | none =>
        have hg : generateActions parse content =
            Except.error GenerateActionsError.invalidJSON := by
          unfold generateActions
          rw [hc]
          simp [ht', hp]
        refine ⟨⟨fun _ => Or.inr (Or.inl ⟨c, rfl, ht, hp⟩), fun _ => ⟨_, hg⟩⟩,
          fun v hv => ?_⟩
        rw [hg] at hv
        cases hv
      | some parsed =>
        by_cases ha : isArrayJ (jGet parsed "actions") = true
        · have hg : generateActions parse content = Except.ok parsed := by
            unfold generateActions
            rw [hc]
            simp [ht', hp, ha]
          refine ⟨⟨?_, ?_⟩, fun v hv => ?_⟩
          · rintro ⟨err, habs⟩
            rw [hg] at habs
            cases habs
          · rintro (h1 | ⟨c2, hcc, ht2, hp2⟩ | ⟨c2, p2, hcc, ht2, hp2, ha2⟩)
            · exact absurd ⟨c, rfl, ht⟩ h1
            · injection hcc with hcc
              subst hcc
              rw [hp2] at hp
              cases hp
            · injection hcc with hcc
              subst hcc
              rw [hp2] at hp
              injection hp with hp
              subst hp
              rw [ha] at ha2
              cases ha2
          · rw [hg] at hv
            injection hv with hv
            subst hv
            exact ha
        · have ha' : isArrayJ (jGet parsed "actions") = false :=
            Bool.eq_false_iff.mpr ha
          have hg : generateActions parse content =
              Except.error GenerateActionsError.missingActionsArray := by
            unfold generateActions
            rw [hc]
            simp [ht', hp, ha']
          refine ⟨⟨fun _ => Or.inr (Or.inr ⟨c, parsed, rfl, ht, hp, ha'⟩),
            fun _ => ⟨_, hg⟩⟩, fun v hv => ?_⟩
          rw [hg] at hv
          cases hv
    · have ht' : (c.type != "text") = true := bne_iff_ne.mpr ht
      have hg : generateActions parse content =
          Except.error GenerateActionsError.unexpectedResponseType := by
        unfold generateActions
        rw [hc]
        simp [ht']
      refine ⟨⟨fun _ => Or.inl ?_, fun _ => ⟨_, hg⟩⟩, fun v hv => ?_⟩
      · rintro ⟨c2, hcc, ht2⟩
        injection hcc with hcc
        subst hcc
        exact ht ht2
      · rw [hg] at hv
        cases hv

/-- Constant parse result used by the C7 counterexample: a JSON object with
an `actions` array and no `explanation` member at all. -/
def parseCE : String → Option JValue :=
  fun _ => some (JValue.obj [("actions", JValue.arr [])])

/-- The parsed value of the C7 counterexample. -/
def parsedCE : JValue := JValue.obj [("actions", JValue.arr [])]

/-- Counterexample to claim C7 as stated: on a well-formed text block whose
extracted content parses to `{"actions": []}`, `generateActions` succeeds —
yet the returned value contains no `explanation` string, contradicting
"otherwise it returns the parsed response containing an explanation string
and an actions array". The source casts the parsed JSON without validating
`explanation`. -/
theorem generateActions_no_explanation_guarantee :
    generateActions parseCE [{ type := "text", text := "irrelevant" }] =
      Except.ok parsedCE
    ∧ jGet parsedCE "explanation" = none :=
  ⟨rfl, rfl⟩
